import Mathlib

/-!
Shallow embedding of the `doze` dependency-injection container
(`doze/di/container/{container,repository,factories,factory,dependency,name_resolution}.py`
plus `doze/assertions.py` and the exception modules).

Modelling conventions:
* Python exceptions become an explicit error type `DozeErr`; a raising call
  returns `.error e`.
* Mutable objects (the repository, the per-thread cyclic-detection stack,
  singleton caches) become explicit state passed through every call
  (`DozeState`).  The claims are single-threaded, so the class-level
  thread-id-indexed context of `DependencyCyclicDetector` is modelled by the
  one stack belonging to the calling thread.
* A factory held by reference in the source (`_init_factories` stores
  `ComponentFactory` objects) is identified by its repository name, which is
  a unique key (`register_factory` rejects duplicates), so the model stores
  names and looks the factory up at use time.
* Python types are an abstract `Ty` with a decidable equality and an
  `issubclass` oracle, bundled with the other ambient facts about the hosting
  Python program (constructor signatures, constructor failures, type names)
  in `PyEnv`.
* Object identity (`is` / `id()`) is modelled by tagging every constructed
  component with a fresh allocation counter value (`next_id` in `DozeState`);
  pre-built instances passed to `register_instance` carry caller-chosen tags.
* Unbounded recursion through the dependency graph is modelled with fuel;
  running out of fuel yields the artificial error `.outOfFuel`, which no
  theorem treats as program behaviour.
-/

/-- Errors of the embedded program: the exception taxonomy of `doze.ex` and
`doze.di.container.ex`, plus Python-level `IndexError` and the fuel artifact. -/
inductive DozeErr where
  /-- `InvalidArgumentException` (raised by `assert_true` / bad key types). -/
  | invalidArgument
  /-- `InvalidStateException` (raised by `assert_state`, e.g. "Factory not initialized",
  and by the cyclic detector's `pop` guard). -/
  | invalidState
  /-- `NameAlreadyDefinedException` (duplicate component name). -/
  | nameAlreadyDefined
  /-- `UnknownComponentException`. -/
  | unknownComponent
  /-- `TooManyDefinitionsException` (ambiguous by-type lookup). -/
  | tooManyDefinitions
  /-- `TypeMismatchException`. -/
  | typeMismatch
  /-- `CyclicDependencyException`, carrying `cyclic_list`. -/
  | cyclicDependency (cycle : List String)
  /-- An exception raised inside a user component's constructor
  (`self._component_type(*args)` failing). -/
  | userError
  /-- Python `IndexError` (`factories[0]` on an empty list). -/
  | indexError
  /-- Modelling artifact: recursion budget exhausted. -/
  | outOfFuel
deriving DecidableEq, Repr

/-- Objects managed by the container.  `ext` is a pre-built instance supplied
from outside (`register_instance`, including the container registering itself);
`made` is a component constructed by `self._component_type(*args)`, tagged with
a fresh allocation id so that Python object identity is expressible. -/
inductive Obj (Ty : Type) where
  | ext (ty : Ty) (tag : Nat)
  | made (ty : Ty) (oid : Nat) (args : List (Obj Ty))

/-- Python `type(instance)`. -/
def Obj.ty {Ty : Type} : Obj Ty → Ty
  | .ext t _ => t
  | .made t _ _ => t

/-- `dependency.DependencyType`: a Python `Enum` with `SIMPLE = 1`, `LIST = 1`,
`SET = 2`, `DICTIONARY = 3`.  Because `LIST` repeats the value `1`, Python makes
it an alias of the member `SIMPLE` rather than a distinct member, so the
enumeration has exactly three members. -/
inductive DependencyType where
  | SIMPLE
  | SET
  | DICTIONARY
deriving DecidableEq, Repr

/-- `DependencyType.LIST` is an alias for `DependencyType.SIMPLE` (both were
declared with value `1`; Python `Enum` turns the second into an alias). -/
def DependencyType.LIST : DependencyType := DependencyType.SIMPLE

/-- The `value` of each enum member, as declared in the source. -/
def DependencyType.value : DependencyType → Nat
  | .SIMPLE => 1
  | .SET => 2
  | .DICTIONARY => 3

/-- `dependency.Dependency`: a requirement for injection. -/
structure Dependency (Ty : Type) where
  component_name : Option String
  component_type : Ty
  dependency_type : DependencyType
deriving DecidableEq

/-- The kind of an `inspect.Parameter` (only the distinction between ordinary
and variadic catch-all parameters matters to the claims; the source itself
never inspects the kind). -/
inductive ParamKind where
  | positionalOrKeyword
  | varPositional
  | varKeyword
deriving DecidableEq, Repr

/-- One parameter of a Python callable's signature: its name, its declared
 annotation (`none` models `inspect.Parameter.empty`) and its kind. -/
structure Param (Ty : Type) where
  name : String
  ann : Option Ty
  kind : ParamKind
deriving DecidableEq

/-- A Python value handed to `generate_dependency_list`: a function or method
(with its signature), a class object (callable but rejected by the
`inspect.isclass` assertion), or a non-callable value. -/
inductive PyValue (Ty : Type) where
  | function (params : List (Param Ty))
  | classObj (t : Ty)
  | plainValue

/-- `dependency.IGNORED_PARAMETERS_NAMES`. -/
def IGNORED_PARAMETERS_NAMES : List String := ["self", "args", "kwargs"]

/-- The parameter loop of `generate_dependency_list`: for each parameter,
`cls` is the annotation or `object` when the annotation is empty, and the
parameter contributes a `Dependency(name, cls, SIMPLE)` unless its name is in
`IGNORED_PARAMETERS_NAMES`. -/
def gen_deps {Ty : Type} (objectTy : Ty) : List (Param Ty) → List (Dependency Ty)
  | [] => []
  | p :: rest =>
    let cls : Ty := p.ann.getD objectTy
    if p.name ∈ IGNORED_PARAMETERS_NAMES then gen_deps objectTy rest
    else { component_name := some p.name, component_type := cls,
           dependency_type := .SIMPLE } :: gen_deps objectTy rest

/-- `dependency.generate_dependency_list`: asserts the argument is callable
(`assert_true(callable(c), ...)` raises `InvalidArgumentException`) and not a
class (`assert_true(not inspect.isclass(c), ...)`), then walks the signature's
parameters. -/
def generate_dependency_list {Ty : Type} (objectTy : Ty) :
    PyValue Ty → Except DozeErr (List (Dependency Ty))
  | .plainValue => .error .invalidArgument
  | .classObj _ => .error .invalidArgument
  | .function params => .ok (gen_deps objectTy params)

/-- `name_resolution.PascalToCamelCaseClassTypeResolverStrategy.to_component_name`:
walks the class name, inserting `_` before each interior uppercase letter and
lowercasing it. -/
def to_component_name (class_name : String) : String :=
  String.mk (class_name.data.foldl
    (fun acc ch =>
      if ch.isUpper then (if acc.length > 0 then acc ++ ['_'] else acc) ++ [ch.toLower]
      else acc ++ [ch]) [])

/-- `DependencyCyclicDetector.push`: if the name is already on the calling
thread's stack, raise `CyclicDependencyException` whose payload is the stack
slice from the first occurrence of the name to the end with the name appended;
otherwise append the name.  The error is raised before the append, so on
failure the stack is unchanged. -/
def cyclicPush (context : List String) (dependency_name : String) :
    Except (List String) (List String) :=
  if dependency_name ∈ context then
    .error ((context.drop (context.indexOf dependency_name)) ++ [dependency_name])
  else .ok (context ++ [dependency_name])

/-- `DependencyCyclicDetector.pop`: raise `InvalidStateException` when the
stack is empty (leaving it empty) or when the popped top does not match the
expected name (the top is removed before the check fails). -/
def cyclicPop (context : List String) (dependency_name : String) :
    (Except DozeErr Unit) × List String :=
  match context.getLast? with
  | none => (.error .invalidState, context)
  | some top =>
    if top = dependency_name then (.ok (), context.dropLast)
    else (.error .invalidState, context.dropLast)

/-- The ambient Python world the container runs in: the subtype oracle
(`issubclass`), the `object` base type used for unannotated parameters, each
class's `__init__` signature (used by `Container.register_type`), the class
name used by the naming strategy, and which constructor calls raise. -/
structure PyEnv (Ty : Type) where
  subclass : Ty → Ty → Bool
  objectTy : Ty
  initSig : Ty → List (Param Ty)
  tyName : Ty → String
  ctorRaises : Ty → List (Obj Ty) → Bool

/-- The behavioural variants of the factory hierarchy: `StaticComponentFactory`
(wrapping a pre-built instance), `SingletonComponentFactory` and
`PrototypeComponentFactory`. -/
inductive FactoryKind (Ty : Type) where
  | static (inst : Obj Ty)
  | singleton
  | prototype

/-- One `ComponentFactory` object.  `initialized` is the `_initialized` flag,
`requirements` the `_requirements` list of a creating factory,
`init_factories` its `_init_factories` (wired by `post_init`, stored as the
unique repository names of the referenced factories), and `cached` the
`_instance` cache of a `SingletonComponentFactory`. -/
structure Factory (Ty : Type) where
  component_name : String
  component_type : Ty
  kind : FactoryKind Ty
  requirements : List (Dependency Ty)
  initialized : Bool
  init_factories : Option (List String)
  cached : Option (Obj Ty)

/-- `ComponentFactory.is_type_of`: `issubclass(self._component_type, cls)`. -/
def is_type_of {Ty : Type} (env : PyEnv Ty) (fac : Factory Ty) (cls : Ty) : Bool :=
  env.subclass fac.component_type cls

/-- `repository.Repository`: `factories` is the registration-ordered list (the
source stores the factory objects; the model stores their unique names),
`factory_by_name` the insertion-ordered name dictionary, and
`available_component_types` the set of registered component types. -/
structure Repository (Ty : Type) where
  factories : List String
  factory_by_name : List (String × Factory Ty)
  available_component_types : List Ty

/-- `Repository.__init__`. -/
def emptyRepository (Ty : Type) : Repository Ty :=
  { factories := [], factory_by_name := [], available_component_types := [] }

/-- `Repository.find_by_name`: dictionary lookup, `None` on a miss. -/
def find_by_name {Ty : Type} (repo : Repository Ty) (component_name : String) :
    Option (Factory Ty) :=
  (repo.factory_by_name.find? (fun p => p.1 = component_name)).map (fun p => p.2)

/-- `Repository.find_by_type`: every `(name, factory)` dictionary item whose
factory `is_type_of` the requested type, in insertion order. -/
def find_by_type {Ty : Type} (env : PyEnv Ty) (repo : Repository Ty) (component_type : Ty) :
    List (String × Factory Ty) :=
  repo.factory_by_name.filter (fun p => is_type_of env p.2 component_type)

/-- `Repository.register_factory`: raise `NameAlreadyDefinedException` when
the name is already a dictionary key (before any mutation), otherwise index
the factory by name, append it to the registration list and add its type to
the available-types set. -/
def register_factory {Ty : Type} [DecidableEq Ty] (repo : Repository Ty)
    (component_name : String) (factory : Factory Ty) :
    (Except DozeErr Unit) × Repository Ty :=
  if repo.factory_by_name.any (fun p => p.1 = component_name) then
    (.error .nameAlreadyDefined, repo)
  else
    (.ok (),
     { factories := repo.factories ++ [component_name],
       factory_by_name := repo.factory_by_name ++ [(component_name, factory)],
       available_component_types :=
         if factory.component_type ∈ repo.available_component_types then
           repo.available_component_types
         else repo.available_component_types ++ [factory.component_type] })

/-- A lookup key for `exist` / `get_component`: Python's `str`-or-`type`
union, modelled as a tagged sum.  (The source raises `InvalidArgumentException`
for any other key type; that branch has no corresponding constructor here.) -/
inductive Key (Ty : Type) where
  | byName (component_name : String)
  | byType (component_type : Ty)

/-- `Repository.exist`: by name, a dictionary-key test; by type, membership in
the `available_component_types` set (exact type, not subtype). -/
def Repository.exist {Ty : Type} [DecidableEq Ty] (repo : Repository Ty) : Key Ty → Bool
  | .byName n => repo.factory_by_name.any (fun p => p.1 = n)
  | .byType t => decide (t ∈ repo.available_component_types)

/-- The loop body of `AbstractCreatingComponentFactory.post_init`, iterating
the requirement list and accumulating the resolved factories' names (the
source appends the factory object to `_init_factories` and its name to
`_init_dependencies`; both are keyed by the accumulated name here).  The final
`if factory is None` re-check of the source is unreachable (the by-type branch
always assigns `factories[0]`) and has no residue in the typed model. -/
def post_init_loop {Ty : Type} (env : PyEnv Ty) (repo : Repository Ty) :
    List (Dependency Ty) → List String → Except DozeErr (List String)
  | [], acc => .ok acc
  | req :: rest, acc =>
    let byName : Option (String × Factory Ty) :=
      match req.component_name with
      | some n =>
        match find_by_name repo n with
        | some f => some (n, f)
        | none => none
      | none => none
    match byName with
    | some (n, f) =>
      if ¬ is_type_of env f req.component_type then .error .typeMismatch
      else post_init_loop env repo rest (acc ++ [n])
    | none =>
      match find_by_type env repo req.component_type with
      | [] => .error .unknownComponent
      | (n, _) :: more =>
        if more.length + 1 > 1 then .error .tooManyDefinitions
        else post_init_loop env repo rest (acc ++ [n])

/-- `ComponentFactory.post_init` dispatch: the base-class no-op for a static
factory; for a creating factory the requirement-resolution loop of
`AbstractCreatingComponentFactory.post_init`, which on success stores the
resolved factory list and marks the factory initialized (`_set_initialized`).
On failure the exception propagates and `_initialized` stays `False`
(`_init_factories` is reassigned to a fresh list on every call, so the
partially filled list left by a failure is never observed). -/
def post_init {Ty : Type} (env : PyEnv Ty) (repo : Repository Ty) (fac : Factory Ty) :
    Except DozeErr (Factory Ty) :=
  match fac.kind with
  | .static _ => .ok fac
  | _ =>
    match post_init_loop env repo fac.requirements [] with
    | .error e => .error e
    | .ok names => .ok { fac with init_factories := some names, initialized := true }

/-- The mutable state threaded through component resolution: the repository
(whose factories' `_initialized` / `_init_factories` / `_instance` fields
mutate), the calling thread's cyclic-detection stack, and the allocation
counter modelling the identity of newly constructed objects. -/
structure DozeState (Ty : Type) where
  repo : Repository Ty
  stack : List String
  next_id : Nat

/-- Apply an entry-wise rewrite to the repository's name dictionary (the model
of an in-place mutation of one factory object held by the repository). -/
def mapEntries {Ty : Type} (repo : Repository Ty)
    (f : (String × Factory Ty) → (String × Factory Ty)) : Repository Ty :=
  { repo with factory_by_name := repo.factory_by_name.map f }

/-- The in-place assignment `self._instance = ...` on the singleton factory
registered under `component_name`. -/
def setCached {Ty : Type} (st : DozeState Ty) (component_name : String) (o : Obj Ty) :
    DozeState Ty :=
  let f := fun (p : String × Factory Ty) =>
    if p.1 = component_name then (p.1, { p.2 with cached := some o }) else p
  { st with repo := mapEntries st.repo f }

/-- The list comprehension `[f.get_object() for f in self._init_factories]`:
resolve each required factory (identified by name, looked up at call time) in
declared order, stopping at the first exception. -/
def collectArgs {Ty : Type}
    (g : String → DozeState Ty → (Except DozeErr (Obj Ty)) × DozeState Ty) :
    List String → DozeState Ty → (Except DozeErr (List (Obj Ty))) × DozeState Ty
  | [], st => (.ok [], st)
  | n :: rest, st =>
    match g n st with
    | (.ok o, st1) =>
      match collectArgs g rest st1 with
      | (.ok os, st2) => (.ok (o :: os), st2)
      | (.error e, st2) => (.error e, st2)
    | (.error e, st1) => (.error e, st1)

/-- `AbstractCreatingComponentFactory._create_component`, with `g` resolving a
required factory's `get_object()`.  The `with DependencyCyclicDetector(...)`
block: `__enter__` pushes the component name (raising `CyclicDependencyException`
without running `__exit__` when the name is already on the stack); the body
asserts the factory is initialized (`InvalidStateException` otherwise),
resolves the requirement objects and calls the component type's constructor
(which may itself raise); `__exit__` pops the name on every exit path, and an
exception raised by `pop` replaces the body's outcome. -/
def createBody {Ty : Type} (env : PyEnv Ty)
    (g : String → DozeState Ty → (Except DozeErr (Obj Ty)) × DozeState Ty)
    (fac : Factory Ty) (st1 : DozeState Ty) :
    (Except DozeErr (Obj Ty)) × DozeState Ty :=
  if ¬ fac.initialized then (.error .invalidState, st1)
  else
    match fac.init_factories with
    | none => (.error .invalidState, st1)
    | some names =>
      match collectArgs g names st1 with
      | (.ok args, stA) =>
        if env.ctorRaises fac.component_type args then (.error .userError, stA)
        else (.ok (.made fac.component_type stA.next_id args),
              { stA with next_id := stA.next_id + 1 })
      | (.error e, stA) => (.error e, stA)

def createComponent {Ty : Type} (env : PyEnv Ty)
    (g : String → DozeState Ty → (Except DozeErr (Obj Ty)) × DozeState Ty)
    (fac : Factory Ty) (st : DozeState Ty) :
    (Except DozeErr (Obj Ty)) × DozeState Ty :=
  match cyclicPush st.stack fac.component_name with
  | .error cyc => (.error (.cyclicDependency cyc), st)
  | .ok s1 =>
    let body : (Except DozeErr (Obj Ty)) × DozeState Ty :=
      createBody env g fac { st with stack := s1 }
    match cyclicPop body.2.stack fac.component_name with
    | (.error e, s3) => (.error e, { body.2 with stack := s3 })
    | (.ok _, s3) => (body.1, { body.2 with stack := s3 })

/-- `ComponentFactory.get_object` dispatch, by factory name.  A static factory
returns its wrapped instance; a singleton factory lazily creates and caches
(`if self._instance is None: self._instance = self._create_component()`, the
cache staying empty when creation raises); a prototype factory creates a fresh
component on every call.  `fuel` bounds the recursion depth through
`_create_component`; it is consumed only when a creation actually recurses. -/
def getObject {Ty : Type} (env : PyEnv Ty) :
    Nat → String → DozeState Ty → (Except DozeErr (Obj Ty)) × DozeState Ty
  | fuel, component_name, st =>
    match find_by_name st.repo component_name with
    | none => (.error .unknownComponent, st)
    | some fac =>
      match fac.kind with
      | .static inst => (.ok inst, st)
      | .singleton =>
        match fac.cached with
        | some o => (.ok o, st)
        | none =>
          match fuel with
          | 0 => (.error .outOfFuel, st)
          | f + 1 =>
            match createComponent env (getObject env f) fac st with
            | (.ok o, st2) => (.ok o, setCached st2 component_name o)
            | (.error e, st2) => (.error e, st2)
      | .prototype =>
        match fuel with
        | 0 => (.error .outOfFuel, st)
        | f + 1 => createComponent env (getObject env f) fac st
termination_by structural fuel => fuel

/-- `container.CONTAINER_COMPONENT_NAME`. -/
def CONTAINER_COMPONENT_NAME : String := "container"

/-- `Container.register_instance`: build a `StaticComponentFactory` (whose
component type is `type(instance)` and which is initialized immediately) and
register it. -/
def register_instance {Ty : Type} [DecidableEq Ty] (repo : Repository Ty)
    (instance_ : Obj Ty) (component_name : String) :
    (Except DozeErr Unit) × Repository Ty :=
  register_factory repo component_name
    { component_name := component_name, component_type := instance_.ty,
      kind := .static instance_, requirements := [], initialized := true,
      init_factories := none, cached := none }

/-- `Container.__init__`: a fresh repository, then `register_instance(self,
CONTAINER_COMPONENT_NAME)` so the container itself is available for lookup.
`selfObj` is the container's own identity. -/
def container_init {Ty : Type} [DecidableEq Ty] (selfObj : Obj Ty) :
    (Except DozeErr Unit) × Repository Ty :=
  register_instance (emptyRepository Ty) selfObj CONTAINER_COMPONENT_NAME

/-- The effective name of `Container.register_type`: the explicit name, or the
naming strategy applied to the class name when omitted. -/
def effective_name {Ty : Type} (env : PyEnv Ty) (component_type : Ty)
    (component_name : Option String) : String :=
  component_name.getD (to_component_name (env.tyName component_type))

/-- `Container.register_type`: derive the component name if omitted, extract
the requirement list from the type's `__init__` signature, and register a
`SingletonComponentFactory` (not yet initialized, nothing cached). -/
def register_type {Ty : Type} [DecidableEq Ty] (env : PyEnv Ty) (repo : Repository Ty)
    (component_type : Ty) (component_name : Option String) :
    (Except DozeErr Unit) × Repository Ty :=
  let name : String := effective_name env component_type component_name
  match generate_dependency_list env.objectTy (.function (env.initSig component_type)) with
  | .error e => (.error e, repo)
  | .ok reqs =>
    register_factory repo name
      { component_name := name, component_type := component_type, kind := .singleton,
        requirements := reqs, initialized := false, init_factories := none, cached := none }

/-- Replace the factory stored under a name (the in-place mutation performed
by `post_init` on a factory object held by the repository). -/
def updateEntry {Ty : Type} (repo : Repository Ty) (component_name : String)
    (fac : Factory Ty) : Repository Ty :=
  mapEntries repo (fun p => if p.1 = component_name then (p.1, fac) else p)

/-- The loop of `Container.setup`: call `post_init` on every factory in
registration order; the first exception aborts the pass, leaving the factories
already processed initialized. -/
def setup_loop {Ty : Type} (env : PyEnv Ty) :
    List String → Repository Ty → (Except DozeErr Unit) × Repository Ty
  | [], repo => (.ok (), repo)
  | n :: rest, repo =>
    match find_by_name repo n with
    | none => (.error .invalidState, repo)
    | some fac =>
      match post_init env repo fac with
      | .error e => (.error e, repo)
      | .ok fac2 => setup_loop env rest (updateEntry repo n fac2)

/-- `Container.setup`: run every registered factory's `post_init` callback in
registration order.  (The `find_by_name` miss inside the loop cannot occur:
`factories` holds exactly the registered names.) -/
def setup {Ty : Type} (env : PyEnv Ty) (repo : Repository Ty) :
    (Except DozeErr Unit) × Repository Ty :=
  setup_loop env repo.factories repo

/-- `Container.get_component`: by name, a repository lookup that raises
`UnknownComponentException` on a miss, then `factory.get_object()`; by type, a
quick `exist` membership test (exact type) raising `UnknownComponentException`,
then `find_by_type`, raising `TooManyDefinitionsException` on more than one
match, then `factories[0]` (whose indexing would raise `IndexError` on an
empty list) and `get_object()` on the selected factory. -/
def get_component {Ty : Type} [DecidableEq Ty] (env : PyEnv Ty) (fuel : Nat)
    (st : DozeState Ty) : Key Ty → (Except DozeErr (Obj Ty)) × DozeState Ty
  | .byName n =>
    match find_by_name st.repo n with
    | none => (.error .unknownComponent, st)
    | some _ => getObject env fuel n st
  | .byType t =>
    if ¬ st.repo.exist (.byType t) then (.error .unknownComponent, st)
    else
      let factories : List (String × Factory Ty) := find_by_type env st.repo t
      if factories.length > 1 then (.error .tooManyDefinitions, st)
      else
        match factories with
        | [] => (.error .indexError, st)
        | (m, _) :: _ => getObject env fuel m st

/-- A concrete universe of Python classes used to instantiate the model:
`object` (the top type), the `Container` class, the mutually recursive test
classes `A`, `B`, `C` of the cyclic-reference scenario, a `Base` / `Sub`
subclass pair, two classes requiring the container (one by parameter name,
one by annotated type only), and a dependency-free class. -/
inductive CTy where
  | object
  | containerT
  | A
  | B
  | C
  | base
  | sub
  | needsC
  | needsC2
  | simpleT
deriving DecidableEq, Repr, Fintype

/-- Python `issubclass` on the concrete universe: reflexive, every class a
subclass of `object`, and `Sub` a subclass of `Base`. -/
def cSubclass : CTy → CTy → Bool
  | _, .object => true
  | .sub, .base => true
  | t, u => decide (t = u)

/-- The `__init__` signatures of the concrete classes.  `A`, `B`, `C` mirror
the cyclic test fixture (`A(self, b)` with annotated types so the wiring
resolves by name), `needsC` takes a parameter literally named `container`, and
`needsC2` a parameter named `x` annotated with the container type. -/
def cInitSig : CTy → List (Param CTy)
  | .A => [⟨"self", none, .positionalOrKeyword⟩, ⟨"b", some .B, .positionalOrKeyword⟩]
  | .B => [⟨"self", none, .positionalOrKeyword⟩, ⟨"c", some .C, .positionalOrKeyword⟩]
  | .C => [⟨"self", none, .positionalOrKeyword⟩, ⟨"a", some .A, .positionalOrKeyword⟩]
  | .needsC => [⟨"self", none, .positionalOrKeyword⟩,
                ⟨"container", some .containerT, .positionalOrKeyword⟩]
  | .needsC2 => [⟨"self", none, .positionalOrKeyword⟩,
                 ⟨"x", some .containerT, .positionalOrKeyword⟩]
  | _ => [⟨"self", none, .positionalOrKeyword⟩]

/-- The class names of the concrete classes (input of the naming strategy). -/
def cTyName : CTy → String
  | .object => "object"
  | .containerT => "Container"
  | .A => "A"
  | .B => "B"
  | .C => "C"
  | .base => "Base"
  | .sub => "Sub"
  | .needsC => "NeedsContainer"
  | .needsC2 => "NeedsContainerByType"
  | .simpleT => "SimpleClass"

/-- The concrete Python environment: no constructor raises. -/
def cEnv : PyEnv CTy :=
  { subclass := cSubclass, objectTy := .object, initSig := cInitSig,
    tyName := cTyName, ctorRaises := fun _ _ => false }

/-- The container instance's own identity. -/
def contObj : Obj CTy := .ext .containerT 0

/-- Cyclic scenario: a container with the three mutually recursive classes
`A -> B -> C -> A` registered under their derived names `a`, `b`, `c`, after
`setup`. -/
def c1Repo : Repository CTy :=
  (setup cEnv
    (register_type cEnv
      (register_type cEnv
        (register_type cEnv (container_init contObj).2 .A none).2 .B none).2 .C none).2).2

/-- The cyclic scenario's state at the start of a top-level `get_component`. -/
def c1State : DozeState CTy := { repo := c1Repo, stack := [], next_id := 1 }

/-- Subtype-lookup scenario: a container holding one pre-built instance of
`Sub` (registered under `s`); no factory produces exactly `Base`. -/
def c3Repo : Repository CTy :=
  (register_instance (container_init contObj).2 (Obj.ext .sub 7) "s").2

/-- The subtype-lookup scenario's state. -/
def c3State : DozeState CTy := { repo := c3Repo, stack := [], next_id := 1 }

/-- Container-injection scenario: `needsC` (parameter named `container`) and
`needsC2` (parameter annotated with the container type) registered and wired. -/
def c8Repo : Repository CTy :=
  (setup cEnv
    (register_type cEnv
      (register_type cEnv (container_init contObj).2 .needsC (some "nc")).2
      .needsC2 (some "nc2")).2).2

/-- The container-injection scenario's state. -/
def c8State : DozeState CTy := { repo := c8Repo, stack := [], next_id := 1 }

/-- Pre-setup scenario: a dependency-free class registered by type, `setup`
not yet called. -/
def c7Repo : Repository CTy :=
  (register_type cEnv (container_init contObj).2 .simpleT (some "s1")).2

/-- The pre-setup scenario's state. -/
def c7State : DozeState CTy := { repo := c7Repo, stack := [], next_id := 1 }

/-- The pre-setup scenario after `setup` has run. -/
def c7StateAfter : DozeState CTy :=
  { repo := (setup cEnv c7Repo).2, stack := [], next_id := 1 }

/-- A wired `PrototypeComponentFactory` with no requirements (the source
defines the class; nothing in the container's registration API instantiates
it, so the scenario builds the factory directly). -/
def protoFac : Factory CTy :=
  { component_name := "p", component_type := .simpleT, kind := .prototype,
    requirements := [], initialized := true, init_factories := some [], cached := none }

/-- A state holding the wired prototype factory. -/
def c6State : DozeState CTy :=
  { repo := { factories := ["p"], factory_by_name := [("p", protoFac)],
              available_component_types := [.simpleT] },
    stack := [], next_id := 0 }

/-- Spec-side rendering of one step of the wiring rule, written from the
claim's words rather than from the loop: a named requirement is looked up by
name and type-checked (failing with `TypeMismatch` on an incompatible produced
type); with no name, or on a name miss, a by-type lookup must find exactly one
factory (`UnknownComponent` on zero, `AmbiguousComponent` on more than one). -/
def resolveRequirementSpec {Ty : Type} (env : PyEnv Ty) (repo : Repository Ty)
    (req : Dependency Ty) : Except DozeErr (String × Factory Ty) :=
  let byType : Except DozeErr (String × Factory Ty) :=
    match find_by_type env repo req.component_type with
    | [] => .error .unknownComponent
    | [pair] => .ok pair
    | _ :: _ :: _ => .error .tooManyDefinitions
  match req.component_name with
  | none => byType
  | some n =>
    match find_by_name repo n with
    | none => byType
    | some f =>
      if is_type_of env f req.component_type then .ok (n, f)
      else .error .typeMismatch

/-- Spec-side rendering of the whole wiring pass over a requirement list:
resolve every requirement in order, stopping at the first failure and
collecting the resolved factories' names. -/
def wireSpec {Ty : Type} (env : PyEnv Ty) (repo : Repository Ty) :
    List (Dependency Ty) → Except DozeErr (List String)
  | [] => .ok []
  | req :: rest =>
    match resolveRequirementSpec env repo req with
    | .error e => .error e
    | .ok (n, _) =>
      match wireSpec env repo rest with
      | .error e => .error e
      | .ok names => .ok (n :: names)

/-- Spec-side rendering of requirement extraction as the claim words it:
skip the implicit `self` parameter and the variadic catch-all parameters
(by their `inspect` kinds), keep every other parameter as one requirement. -/
def extractSpec {Ty : Type} (objectTy : Ty) (params : List (Param Ty)) :
    List (Dependency Ty) :=
  (params.filter (fun p =>
      decide (¬ (p.name = "self" ∨ p.kind = .varPositional ∨ p.kind = .varKeyword)))).map
    (fun p => { component_name := some p.name, component_type := p.ann.getD objectTy,
                dependency_type := .SIMPLE })

/-- Well-formedness of the name dictionary: every stored factory carries the
name it is registered under (true of every factory the container builds:
`register_instance` and `register_type` pass the same name to the factory's
initializer and to `register_factory`). -/
def WFNames {Ty : Type} (repo : Repository Ty) : Prop :=
  ∀ m g, find_by_name repo m = some g → g.component_name = m

/-- Entry evolution during resolution: a factory entry either stays unchanged
or has its singleton cache filled (`self._instance = ...` is the only factory
mutation `get_object` can perform). -/
def EntriesEvolve {Ty : Type} (st st' : DozeState Ty) : Prop :=
  ∀ m, find_by_name st'.repo m = find_by_name st.repo m ∨
    ∃ g o, find_by_name st.repo m = some g ∧
      find_by_name st'.repo m = some { g with cached := some o }

/-- What any single resolution step preserves: the cyclic-detection stack is
restored, the allocation counter grows monotonically, and repository entries
evolve only by singleton caching. -/
def RunOK {Ty : Type} (st st' : DozeState Ty) : Prop :=
  st'.stack = st.stack ∧ st.next_id ≤ st'.next_id ∧ EntriesEvolve st st'

/-- Entries pinned on the cyclic-detection stack at call entry are untouched
by the call (their creation is suspended, so their cache cannot be filled). -/
def PinnedStable {Ty : Type} (st st' : DozeState Ty) : Prop :=
  ∀ m, m ∈ st.stack → find_by_name st'.repo m = find_by_name st.repo m

/-- The name `m` is bound to a static factory wrapping instance `c`. -/
def StaticAt {Ty : Type} (st : DozeState Ty) (m : String) (c : Obj Ty) : Prop :=
  ∃ g, find_by_name st.repo m = some g ∧ g.kind = .static c

/-- Agreement of the type index with the name dictionary: a type is in
`available_component_types` exactly when some registered factory produces
exactly that type (an invariant `register_factory` maintains). -/
def typesIndexOK {Ty : Type} (repo : Repository Ty) : Prop :=
  ∀ t : Ty, t ∈ repo.available_component_types ↔
    ∃ p ∈ repo.factory_by_name, p.2.component_type = t

/-- An ordinary (non-variadic) constructor parameter that happens to be named
`args`, with a declared type. -/
def argsParam : Param CTy :=
  { name := "args", ann := some .base, kind := .positionalOrKeyword }

/-- The (pre-wiring) singleton factory the container builds for `needsC`
under the explicit name `nc`: one requirement, extracted from the parameter
`container : Container` of its `__init__`. -/
def c2Fac : Factory CTy :=
  { component_name := "nc", component_type := .needsC, kind := .singleton,
    requirements := [{ component_name := some "container", component_type := .containerT,
                       dependency_type := .SIMPLE }],
    initialized := false, init_factories := none, cached := none }

lemma find?_map_keyfix {Ty : Type} (l : List (String × Factory Ty)) (n m : String)
    (u : Factory Ty → Factory Ty) :
    (l.map (fun p => if p.1 = n then (p.1, u p.2) else p)).find?
        (fun p => decide (p.1 = m)) =
      (l.find? (fun p => decide (p.1 = m))).map
        (fun p => if p.1 = n then (p.1, u p.2) else p) := by
  induction l with
  | nil => rfl
  | cons p l ih =>
    have hkey : ((if p.1 = n then (p.1, u p.2) else p) : String × Factory Ty).1 = p.1 := by
      by_cases hn : p.1 = n <;> simp [hn]
    by_cases hm : p.1 = m
    · rw [List.map_cons, List.find?_cons_of_pos _ (by rw [hkey]; simp [hm]),
        List.find?_cons_of_pos _ (by simp [hm])]
      simp
    · rw [List.map_cons, List.find?_cons_of_neg _ (by rw [hkey]; simp [hm]),
        List.find?_cons_of_neg _ (by simp [hm]), ih]

lemma find_by_name_mapEntries {Ty : Type} (repo : Repository Ty) (n m : String)
    (u : Factory Ty → Factory Ty) :
    find_by_name (mapEntries repo (fun p => if p.1 = n then (p.1, u p.2) else p)) m =
      (find_by_name repo m).map (fun g => if m = n then u g else g) := by
  unfold find_by_name mapEntries
  rw [find?_map_keyfix]
  rcases hf : repo.factory_by_name.find? (fun p => decide (p.1 = m)) with _ | p
  · rw [hf]
    rfl
  · rw [hf]
    have hp : p.1 = m := by
      have := List.find?_some hf
      simpa using this
    subst hp
    by_cases hn : p.1 = n <;> simp [hn]

lemma find_by_name_setCached {Ty : Type} (st : DozeState Ty) (n m : String) (o : Obj Ty) :
    find_by_name (setCached st n o).repo m =
      (find_by_name st.repo m).map
        (fun g => if m = n then { g with cached := some o } else g) := by
  unfold setCached
  exact find_by_name_mapEntries st.repo n m (fun g => { g with cached := some o })

lemma entriesEvolve_refl {Ty : Type} (st : DozeState Ty) : EntriesEvolve st st :=
  fun _ => Or.inl rfl

lemma entriesEvolve_trans {Ty : Type} {a b c : DozeState Ty}
    (h1 : EntriesEvolve a b) (h2 : EntriesEvolve b c) : EntriesEvolve a c := by
  intro m
  rcases h2 m with h2m | ⟨g, o, hg, hg'⟩
  · rcases h1 m with h1m | ⟨g, o, hg, hg'⟩
    · exact Or.inl (h2m.trans h1m)
    · exact Or.inr ⟨g, o, hg, h2m.trans hg'⟩
  · rcases h1 m with h1m | ⟨g1, o1, hg1, hg1'⟩
    · exact Or.inr ⟨g, o, h1m ▸ hg, hg'⟩
    · rw [hg1'] at hg
      cases hg
      exact Or.inr ⟨g1, o, hg1, hg'⟩

lemma runOK_refl {Ty : Type} (st : DozeState Ty) : RunOK st st :=
  ⟨rfl, le_refl _, entriesEvolve_refl st⟩

lemma runOK_trans {Ty : Type} {a b c : DozeState Ty}
    (h1 : RunOK a b) (h2 : RunOK b c) : RunOK a c :=
  ⟨h2.1.trans h1.1, le_trans h1.2.1 h2.2.1, entriesEvolve_trans h1.2.2 h2.2.2⟩

lemma setCached_runOK {Ty : Type} (st : DozeState Ty) (n : String) (o : Obj Ty) :
    RunOK st (setCached st n o) := by
  refine ⟨rfl, le_refl _, ?_⟩
  intro m
  rw [find_by_name_setCached]
  by_cases hm : m = n
  · rcases hf : find_by_name st.repo m with _ | g
    · exact Or.inl (by simp [hm])
    · exact Or.inr ⟨g, o, rfl, by simp [hm]⟩
  · rcases hf : find_by_name st.repo m with _ | g <;> exact Or.inl (by simp [hm])

lemma wfNames_of_entries {Ty : Type} (repo : Repository Ty)
    (h : ∀ p ∈ repo.factory_by_name, p.2.component_name = p.1) : WFNames repo := by
  intro m g hg
  unfold find_by_name at hg
  rcases hf : repo.factory_by_name.find? (fun p => decide (p.1 = m)) with _ | p
  · rw [hf] at hg
    cases hg
  · rw [hf] at hg
    have hmem : p ∈ repo.factory_by_name := List.mem_of_find?_eq_some hf
    have hkey : p.1 = m := by simpa using List.find?_some hf
    cases hg
    rw [← hkey]
    exact h p hmem

lemma wfNames_evolve {Ty : Type} {a b : DozeState Ty}
    (hwf : WFNames a.repo) (he : EntriesEvolve a b) : WFNames b.repo := by
  intro m g hg
  rcases he m with hm | ⟨g1, o, hg1, hg1'⟩
  · exact hwf m g (hm ▸ hg)
  · rw [hg1'] at hg
    cases hg
    exact hwf m g1 hg1

lemma collectArgs_runOK {Ty : Type}
    (g : String → DozeState Ty → (Except DozeErr (Obj Ty)) × DozeState Ty)
    (hg : ∀ n s, RunOK s (g n s).2) :
    ∀ (names : List String) (st : DozeState Ty), RunOK st (collectArgs g names st).2 := by
  intro names
  induction names with
  | nil => intro st; exact runOK_refl st
  | cons n rest ih =>
    intro st
    rcases h1 : g n st with ⟨r1, st1⟩
    have hg1 : RunOK st st1 := by
      have := hg n st
      rw [h1] at this
      exact this
    cases r1 with
    | ok o =>
      rcases h2 : collectArgs g rest st1 with ⟨r2, st2⟩
      have hg2 : RunOK st1 st2 := by
        have := ih st1
        rw [h2] at this
        exact this
      cases r2 with
      | ok os =>
        simp only [collectArgs, h1, h2]
        exact runOK_trans hg1 hg2
      | error e =>
        simp only [collectArgs, h1, h2]
        exact runOK_trans hg1 hg2
    | error e =>
      simp only [collectArgs, h1]
      exact hg1

lemma createBody_runOK {Ty : Type} (env : PyEnv Ty)
    (g : String → DozeState Ty → (Except DozeErr (Obj Ty)) × DozeState Ty)
    (hg : ∀ n s, RunOK s (g n s).2) (fac : Factory Ty) (st1 : DozeState Ty) :
    RunOK st1 (createBody env g fac st1).2 := by
  unfold createBody
  by_cases hinit : fac.initialized
  · simp only [hinit, not_true, if_neg, ite_false, Bool.not_true]
    rcases hif : fac.init_factories with _ | names
    · simp only []
      exact runOK_refl st1
    · simp only []
      rcases hc : collectArgs g names st1 with ⟨rc, stA⟩
      have hcOK : RunOK st1 stA := by
        have := collectArgs_runOK g hg names st1
        rw [hc] at this
        exact this
      cases rc with
      | ok args =>
        by_cases hcr : env.ctorRaises fac.component_type args
        · simp only [hcr, ite_true]
          exact hcOK
        · simp only [hcr, ite_false]
          exact ⟨hcOK.1, le_trans hcOK.2.1 (Nat.le_succ _), hcOK.2.2⟩
      | error e =>
        simp only []
        exact hcOK
  · simp only [hinit]
    simp
    exact runOK_refl st1

lemma createComponent_runOK {Ty : Type} (env : PyEnv Ty)
    (g : String → DozeState Ty → (Except DozeErr (Obj Ty)) × DozeState Ty)
    (hg : ∀ n s, RunOK s (g n s).2) (fac : Factory Ty) (st : DozeState Ty) :
    RunOK st (createComponent env g fac st).2 := by
  unfold createComponent cyclicPush
  by_cases hmem : fac.component_name ∈ st.stack
  · rw [if_pos hmem]
    exact runOK_refl st
  · rw [if_neg hmem]
    simp only []
    have hbody := createBody_runOK env g hg fac { st with stack := st.stack ++ [fac.component_name] }
    rcases hb : createBody env g fac { st with stack := st.stack ++ [fac.component_name] }
      with ⟨rb, stB⟩
    rw [hb] at hbody
    have hstk : stB.stack = st.stack ++ [fac.component_name] := hbody.1
    unfold cyclicPop
    rw [hstk, List.getLast?_concat, List.dropLast_concat]
    simp only [if_pos]
    cases rb with
    | ok o => exact ⟨rfl, hbody.2.1, hbody.2.2⟩
    | error e => exact ⟨rfl, hbody.2.1, hbody.2.2⟩

lemma getObject_zero {Ty : Type} (env : PyEnv Ty) (n : String) (st : DozeState Ty) :
    getObject env 0 n st =
      match find_by_name st.repo n with
      | none => (.error .unknownComponent, st)
      | some fac =>
        match fac.kind with
        | .static inst => (.ok inst, st)
        | .singleton =>
          match fac.cached with
          | some o => (.ok o, st)
          | none => (.error .outOfFuel, st)
        | .prototype => (.error .outOfFuel, st) := by
  unfold getObject
  rfl

lemma getObject_succ {Ty : Type} (env : PyEnv Ty) (f : Nat) (n : String) (st : DozeState Ty) :
    getObject env (f + 1) n st =
      match find_by_name st.repo n with
      | none => (.error .unknownComponent, st)
      | some fac =>
        match fac.kind with
        | .static inst => (.ok inst, st)
        | .singleton =>
          match fac.cached with
          | some o => (.ok o, st)
          | none =>
            match createComponent env (getObject env f) fac st with
            | (.ok o, st2) => (.ok o, setCached st2 n o)
            | (.error e, st2) => (.error e, st2)
        | .prototype => createComponent env (getObject env f) fac st := by
  unfold getObject
  rfl

lemma getObject_runOK {Ty : Type} (env : PyEnv Ty) :
    ∀ (fuel : Nat) (n : String) (st : DozeState Ty), RunOK st (getObject env fuel n st).2 := by
  intro fuel
  induction fuel with
  | zero =>
    intro n st
    rw [getObject_zero]
    split
    · exact runOK_refl st
    · split
      · exact runOK_refl st
      · split
        · exact runOK_refl st
        · exact runOK_refl st
      · exact runOK_refl st
  | succ f ih =>
    intro n st
    rw [getObject_succ]
    split
    · exact runOK_refl st
    · rename_i fac heqf
      split
      · exact runOK_refl st
      · split
        · exact runOK_refl st
        · have hcc := createComponent_runOK env (getObject env f) ih fac st
          split
          · rename_i o st2 hc
            rw [hc] at hcc
            exact runOK_trans hcc (setCached_runOK st2 n o)
          · rename_i e st2 hc
            rw [hc] at hcc
            exact hcc
      · exact createComponent_runOK env (getObject env f) ih fac st

lemma collectArgs_pinned {Ty : Type}
    (g : String → DozeState Ty → (Except DozeErr (Obj Ty)) × DozeState Ty)
    (hgR : ∀ n s, RunOK s (g n s).2)
    (hgP : ∀ n s, WFNames s.repo → PinnedStable s (g n s).2) :
    ∀ (names : List String) (st : DozeState Ty), WFNames st.repo →
      PinnedStable st (collectArgs g names st).2 := by
  intro names
  induction names with
  | nil => intro st _ m _; rfl
  | cons n rest ih =>
    intro st hwf m hm
    rcases h1 : g n st with ⟨r1, st1⟩
    have hR1 : RunOK st st1 := by have := hgR n st; rw [h1] at this; exact this
    have hP1 : find_by_name st1.repo m = find_by_name st.repo m := by
      have := hgP n st hwf
      rw [h1] at this
      exact this m hm
    have hwf1 : WFNames st1.repo := wfNames_evolve hwf hR1.2.2
    have hm1 : m ∈ st1.stack := by rw [hR1.1]; exact hm
    cases r1 with
    | ok o =>
      rcases h2 : collectArgs g rest st1 with ⟨r2, st2⟩
      have hP2 : find_by_name st2.repo m = find_by_name st1.repo m := by
        have := ih st1 hwf1
        rw [h2] at this
        exact this m hm1
      cases r2 with
      | ok os =>
        simp only [collectArgs, h1, h2]
        exact hP2.trans hP1
      | error e =>
        simp only [collectArgs, h1, h2]
        exact hP2.trans hP1
    | error e =>
      simp only [collectArgs, h1]
      exact hP1

lemma createBody_pinned {Ty : Type} (env : PyEnv Ty)
    (g : String → DozeState Ty → (Except DozeErr (Obj Ty)) × DozeState Ty)
    (hgR : ∀ n s, RunOK s (g n s).2)
    (hgP : ∀ n s, WFNames s.repo → PinnedStable s (g n s).2)
    (fac : Factory Ty) (st1 : DozeState Ty) (hwf : WFNames st1.repo) :
    PinnedStable st1 (createBody env g fac st1).2 := by
  unfold createBody
  by_cases hinit : fac.initialized
  · simp only [hinit, not_true, if_neg, ite_false, Bool.not_true]
    split
    · intro m _; rfl
    · rename_i names hif
      split
      · rename_i args stA hc
        have hP : PinnedStable st1 stA := by
          have := collectArgs_pinned g hgR hgP names st1 hwf
          rw [hc] at this
          exact this
        by_cases hcr : env.ctorRaises fac.component_type args
        · simp only [hcr, ite_true]
          exact hP
        · simp only [hcr, ite_false]
          exact hP
      · rename_i e stA hc
        have hP : PinnedStable st1 stA := by
          have := collectArgs_pinned g hgR hgP names st1 hwf
          rw [hc] at this
          exact this
        exact hP
  · simp only [hinit]
    simp
    intro m _; rfl

lemma createComponent_ok_not_mem {Ty : Type} (env : PyEnv Ty)
    (g : String → DozeState Ty → (Except DozeErr (Obj Ty)) × DozeState Ty)
    (fac : Factory Ty) (st : DozeState Ty) (o : Obj Ty) (st' : DozeState Ty)
    (h : createComponent env g fac st = (.ok o, st')) :
    fac.component_name ∉ st.stack := by
  intro hmem
  unfold createComponent cyclicPush at h
  rw [if_pos hmem] at h
  cases h

lemma createComponent_pinned {Ty : Type} (env : PyEnv Ty)
    (g : String → DozeState Ty → (Except DozeErr (Obj Ty)) × DozeState Ty)
    (hgR : ∀ n s, RunOK s (g n s).2)
    (hgP : ∀ n s, WFNames s.repo → PinnedStable s (g n s).2)
    (fac : Factory Ty) (st : DozeState Ty) (hwf : WFNames st.repo) :
    ∀ m, m ∈ st.stack ∨ m = fac.component_name →
      find_by_name (createComponent env g fac st).2.repo m = find_by_name st.repo m := by
  intro m hm
  unfold createComponent cyclicPush
  by_cases hmem : fac.component_name ∈ st.stack
  · rw [if_pos hmem]
  · rw [if_neg hmem]
    simp only []
    have hbodyR := createBody_runOK env g hgR fac
      { st with stack := st.stack ++ [fac.component_name] }
    have hbodyP := createBody_pinned env g hgR hgP fac
      { st with stack := st.stack ++ [fac.component_name] } hwf
    rcases hb : createBody env g fac { st with stack := st.stack ++ [fac.component_name] }
      with ⟨rb, stB⟩
    rw [hb] at hbodyR hbodyP
    have hstk : stB.stack = st.stack ++ [fac.component_name] := hbodyR.1
    have hmm : m ∈ st.stack ++ [fac.component_name] := by
      rcases hm with hm | hm
      · exact List.mem_append_left _ hm
      · rw [hm]; exact List.mem_append_right _ (List.mem_singleton_self _)
    have hPm : find_by_name stB.repo m = find_by_name st.repo m := hbodyP m hmm
    unfold cyclicPop
    rw [hstk, List.getLast?_concat, List.dropLast_concat]
    simp only [if_pos]
    cases rb with
    | ok o => exact hPm
    | error e => exact hPm

lemma getObject_pinned {Ty : Type} (env : PyEnv Ty) :
    ∀ (fuel : Nat) (n : String) (st : DozeState Ty), WFNames st.repo →
      PinnedStable st (getObject env fuel n st).2 := by
  intro fuel
  induction fuel with
  | zero =>
    intro n st _
    rw [getObject_zero]
    split
    · intro m _; rfl
    · split
      · intro m _; rfl
      · split
        · intro m _; rfl
        · intro m _; rfl
      · intro m _; rfl
  | succ f ih =>
    intro n st hwf
    rw [getObject_succ]
    split
    · intro m _; rfl
    · rename_i fac heqf
      split
      · intro m _; rfl
      · split
        · intro m _; rfl
        · split
          · rename_i o st2 hc
            intro m hm
            have hnotmem : fac.component_name ∉ st.stack :=
              createComponent_ok_not_mem env (getObject env f) fac st o st2 hc
            have hname : fac.component_name = n := hwf n fac heqf
            have hmn : m ≠ n := by
              intro hcontra
              rw [hcontra] at hm
              rw [hname] at hnotmem
              exact hnotmem hm
            have hPc : find_by_name st2.repo m = find_by_name st.repo m := by
              have := createComponent_pinned env (getObject env f)
                (getObject_runOK env f) ih fac st hwf m (Or.inl hm)
              rw [hc] at this
              exact this
            rw [find_by_name_setCached, hPc]
            rcases hfm : find_by_name st.repo m with _ | g
            · rfl
            · simp [hmn]
          · rename_i e st2 hc
            intro m hm
            have := createComponent_pinned env (getObject env f)
              (getObject_runOK env f) ih fac st hwf m (Or.inl hm)
            rw [hc] at this
            exact this
      · intro m hm
        exact createComponent_pinned env (getObject env f)
          (getObject_runOK env f) ih fac st hwf m (Or.inl hm)

lemma createBody_ok_shape {Ty : Type} (env : PyEnv Ty)
    (g : String → DozeState Ty → (Except DozeErr (Obj Ty)) × DozeState Ty)
    (hgR : ∀ n s, RunOK s (g n s).2)
    (fac : Factory Ty) (st1 : DozeState Ty) (o : Obj Ty) (stB : DozeState Ty)
    (h : createBody env g fac st1 = (.ok o, stB)) :
    ∃ args k, o = Obj.made fac.component_type k args ∧
      st1.next_id ≤ k ∧ stB.next_id = k + 1 := by
  unfold createBody at h
  by_cases hinit : fac.initialized
  · simp only [hinit, not_true, if_neg, ite_false, Bool.not_true] at h
    rcases hif : fac.init_factories with _ | names
    · simp [hif] at h
    · simp only [hif] at h
      rcases hc : collectArgs g names st1 with ⟨rc, stA⟩
      rw [hc] at h
      cases rc with
      | ok args =>
        by_cases hcr : env.ctorRaises fac.component_type args
        · simp [hcr] at h
        · simp only [hcr, ite_false] at h
          have hmono : st1.next_id ≤ stA.next_id := by
            have := collectArgs_runOK g hgR names st1
            rw [hc] at this
            exact this.2.1
          cases h
          exact ⟨args, stA.next_id, rfl, hmono, rfl⟩
      | error e => simp at h
  · simp [hinit] at h

lemma createComponent_ok_parts {Ty : Type} (env : PyEnv Ty)
    (g : String → DozeState Ty → (Except DozeErr (Obj Ty)) × DozeState Ty)
    (hgR : ∀ n s, RunOK s (g n s).2)
    (fac : Factory Ty) (st : DozeState Ty) (o : Obj Ty) (st' : DozeState Ty)
    (h : createComponent env g fac st = (.ok o, st')) :
    ∃ stB, createBody env g fac { st with stack := st.stack ++ [fac.component_name] } =
        (.ok o, stB) ∧ st' = { stB with stack := st.stack } := by
  have hmem := createComponent_ok_not_mem env g fac st o st' h
  unfold createComponent cyclicPush at h
  rw [if_neg hmem] at h
  simp only [] at h
  have hbodyR := createBody_runOK env g hgR fac
    { st with stack := st.stack ++ [fac.component_name] }
  rcases hb : createBody env g fac { st with stack := st.stack ++ [fac.component_name] }
    with ⟨rb, stB⟩
  rw [hb] at h hbodyR
  have hstk : stB.stack = st.stack ++ [fac.component_name] := hbodyR.1
  unfold cyclicPop at h
  rw [hstk, List.getLast?_concat, List.dropLast_concat] at h
  simp only [if_pos] at h
  cases rb with
  | ok o2 =>
    cases h
    exact ⟨stB, rfl, rfl⟩
  | error e => cases h

lemma createComponent_ok_shape {Ty : Type} (env : PyEnv Ty)
    (g : String → DozeState Ty → (Except DozeErr (Obj Ty)) × DozeState Ty)
    (hgR : ∀ n s, RunOK s (g n s).2)
    (fac : Factory Ty) (st : DozeState Ty) (o : Obj Ty) (st' : DozeState Ty)
    (h : createComponent env g fac st = (.ok o, st')) :
    ∃ args k, o = Obj.made fac.component_type k args ∧
      st.next_id ≤ k ∧ st'.next_id = k + 1 := by
  obtain ⟨stB, hB, hst⟩ := createComponent_ok_parts env g hgR fac st o st' h
  obtain ⟨args, k, ho, hle, hid⟩ := createBody_ok_shape env g hgR fac _ o stB hB
  exact ⟨args, k, ho, hle, by rw [hst]; exact hid⟩

lemma entriesEvolve_keeps {Ty : Type} {st st' : DozeState Ty} {n : String} {fac : Factory Ty}
    (he : EntriesEvolve st st') (hf : find_by_name st.repo n = some fac) :
    ∃ fac2, find_by_name st'.repo n = some fac2 ∧ fac2.kind = fac.kind ∧
      fac2.component_type = fac.component_type ∧
      fac2.component_name = fac.component_name ∧
      fac2.initialized = fac.initialized ∧
      fac2.init_factories = fac.init_factories := by
  rcases he n with hn | ⟨g, o, hg, hg'⟩
  · exact ⟨fac, hn.trans hf, rfl, rfl, rfl, rfl, rfl⟩
  · rw [hf] at hg
    cases hg
    exact ⟨{ fac with cached := some o }, hg', rfl, rfl, rfl, rfl, rfl⟩

lemma getObject_singleton_cache {Ty : Type} (env : PyEnv Ty) (fuel : Nat) (n : String)
    (st : DozeState Ty) (fac : Factory Ty) (o : Obj Ty) (st' : DozeState Ty)
    (hwf : WFNames st.repo) (hf : find_by_name st.repo n = some fac)
    (hk : fac.kind = .singleton) (h : getObject env fuel n st = (.ok o, st')) :
    ∃ fac', find_by_name st'.repo n = some fac' ∧ fac'.kind = .singleton ∧
      fac'.cached = some o := by
  cases fuel with
  | zero =>
    rw [getObject_zero] at h
    simp only [hf, hk] at h
    rcases hcd : fac.cached with _ | o2
    · simp [hcd] at h
    · simp only [hcd] at h
      cases h
      exact ⟨fac, hf, hk, hcd⟩
  | succ f =>
    rw [getObject_succ] at h
    simp only [hf, hk] at h
    rcases hcd : fac.cached with _ | o2
    · simp only [hcd] at h
      rcases hc : createComponent env (getObject env f) fac st with ⟨rc, st2⟩
      rw [hc] at h
      cases rc with
      | ok o3 =>
        rw [Prod.mk.injEq] at h
        obtain ⟨ho, hst⟩ := h
        rw [Except.ok.injEq] at ho
        have hname : fac.component_name = n := hwf n fac hf
        have hPc : find_by_name st2.repo n = find_by_name st.repo n := by
          have := createComponent_pinned env (getObject env f) (getObject_runOK env f)
            (getObject_pinned env f) fac st hwf n (Or.inr hname.symm)
          rw [hc] at this
          exact this
        refine ⟨{ fac with cached := some o }, ?_, hk, rfl⟩
        rw [← hst, ← ho]
        rw [find_by_name_setCached, hPc, hf]
        simp
      | error e => cases h
    · simp only [hcd] at h
      cases h
      exact ⟨fac, hf, hk, hcd⟩

lemma getObject_cached_hit {Ty : Type} (env : PyEnv Ty) (fuel : Nat) (n : String)
    (st : DozeState Ty) (fac : Factory Ty) (o : Obj Ty)
    (hf : find_by_name st.repo n = some fac) (hk : fac.kind = .singleton)
    (hcd : fac.cached = some o) :
    getObject env fuel n st = (.ok o, st) := by
  cases fuel with
  | zero =>
    rw [getObject_zero]
    simp only [hf, hk, hcd]
  | succ f =>
    rw [getObject_succ]
    simp only [hf, hk, hcd]

lemma getObject_static_eval {Ty : Type} (env : PyEnv Ty) (fuel : Nat) (m : String)
    (st : DozeState Ty) (c : Obj Ty) (h : StaticAt st m c) :
    getObject env fuel m st = (.ok c, st) := by
  obtain ⟨g, hg, hk⟩ := h
  cases fuel with
  | zero =>
    rw [getObject_zero]
    simp only [hg, hk]
  | succ f =>
    rw [getObject_succ]
    simp only [hg, hk]

lemma staticAt_evolve {Ty : Type} {st st' : DozeState Ty} {m : String} {c : Obj Ty}
    (he : EntriesEvolve st st') (h : StaticAt st m c) : StaticAt st' m c := by
  obtain ⟨g, hg, hk⟩ := h
  obtain ⟨g2, hg2, hkind, -, -, -, -⟩ := entriesEvolve_keeps he hg
  exact ⟨g2, hg2, hkind.trans hk⟩

lemma collectArgs_contains_static {Ty : Type}
    (g : String → DozeState Ty → (Except DozeErr (Obj Ty)) × DozeState Ty)
    (hgR : ∀ n s, RunOK s (g n s).2) (m : String) (c : Obj Ty)
    (hgS : ∀ s, StaticAt s m c → g m s = (.ok c, s)) :
    ∀ (names : List String) (st : DozeState Ty) (args : List (Obj Ty)) (st' : DozeState Ty),
      StaticAt st m c → m ∈ names → collectArgs g names st = (.ok args, st') →
      c ∈ args := by
  intro names
  induction names with
  | nil =>
    intro st args st' _ hmem _
    cases hmem
  | cons n rest ih =>
    intro st args st' hstat hmem hcoll
    rcases h1 : g n st with ⟨r1, st1⟩
    rw [collectArgs, h1] at hcoll
    cases r1 with
    | ok o =>
      have hcoll2 : (match collectArgs g rest st1 with
          | (.ok os, st2) => ((.ok (o :: os) : Except DozeErr (List (Obj Ty))), st2)
          | (.error e, st2) => (.error e, st2)) = (.ok args, st') := hcoll
      rcases h2 : collectArgs g rest st1 with ⟨r2, st2⟩
      rw [h2] at hcoll2
      cases r2 with
      | ok os =>
        have hcoll3 : ((.ok (o :: os) : Except DozeErr (List (Obj Ty))), st2) =
            (.ok args, st') := hcoll2
        rw [Prod.mk.injEq] at hcoll3
        obtain ⟨hargs, -⟩ := hcoll3
        rw [Except.ok.injEq] at hargs
        rw [← hargs]
        rcases List.mem_cons.mp hmem with hmn | hmrest
        · rw [← hmn] at h1
          rw [hgS st hstat] at h1
          rw [Prod.mk.injEq] at h1
          obtain ⟨hco, -⟩ := h1
          rw [Except.ok.injEq] at hco
          rw [hco]
          exact List.mem_cons_self _ _
        · have hR1 : RunOK st st1 := by
            have := hgR n st
            rw [h1] at this
            exact this
          have hstat1 : StaticAt st1 m c := staticAt_evolve hR1.2.2 hstat
          exact List.mem_cons_of_mem _ (ih st1 os st2 hstat1 hmrest h2)
      | error e =>
        have hcoll3 : ((.error e : Except DozeErr (List (Obj Ty))), st2) =
            (.ok args, st') := hcoll2
        cases hcoll3
    | error e =>
      have hcoll2 : ((.error e : Except DozeErr (List (Obj Ty))), st1) =
          (.ok args, st') := hcoll
      cases hcoll2

lemma gen_deps_filter_map {Ty : Type} (objectTy : Ty) (params : List (Param Ty)) :
    gen_deps objectTy params =
      (params.filter (fun p => decide (p.name ∉ IGNORED_PARAMETERS_NAMES))).map
        (fun p => { component_name := some p.name, component_type := p.ann.getD objectTy,
                    dependency_type := .SIMPLE }) := by
  induction params with
  | nil => rfl
  | cons p rest ih =>
    by_cases hn : p.name ∈ IGNORED_PARAMETERS_NAMES
    · simp [gen_deps, hn, List.filter_cons, ih]
    · simp [gen_deps, hn, List.filter_cons, ih]

lemma wireSpec_nil {Ty : Type} (env : PyEnv Ty) (repo : Repository Ty) :
    wireSpec env repo [] = .ok [] := rfl

lemma wireSpec_cons {Ty : Type} (env : PyEnv Ty) (repo : Repository Ty)
    (req : Dependency Ty) (rest : List (Dependency Ty)) :
    wireSpec env repo (req :: rest) =
      match resolveRequirementSpec env repo req with
      | .error e => .error e
      | .ok (n, _) =>
        match wireSpec env repo rest with
        | .error e => .error e
        | .ok names => .ok (n :: names) := rfl

lemma post_init_loop_spec {Ty : Type} (env : PyEnv Ty) (repo : Repository Ty) :
    ∀ (reqs : List (Dependency Ty)) (acc : List String),
      post_init_loop env repo reqs acc =
        match wireSpec env repo reqs with
        | .error e => .error e
        | .ok names => .ok (acc ++ names) := by
  intro reqs
  induction reqs with
  | nil =>
    intro acc
    simp [post_init_loop, wireSpec]
  | cons req rest ih =>
    intro acc
    rw [wireSpec_cons]
    rcases hreqn : req.component_name with _ | n
    · simp only [post_init_loop, resolveRequirementSpec, hreqn]
      rcases hft : find_by_type env repo req.component_type with _ | ⟨⟨n0, f0⟩, more⟩
      · simp [hft]
      · cases more with
        | nil =>
          simp only [hft, List.length_nil, Nat.zero_add, gt_iff_lt, Nat.lt_irrefl, ite_false]
          rw [ih (acc ++ [n0])]
          rcases hws : wireSpec env repo rest with e | names
          · simp
          · simp
        | cons q more2 =>
          simp [hft]
    · rcases hfind : find_by_name repo n with _ | f0
      · simp only [post_init_loop, resolveRequirementSpec, hreqn, hfind]
        rcases hft : find_by_type env repo req.component_type with _ | ⟨⟨n0, f0⟩, more⟩
        · simp [hft]
        · cases more with
          | nil =>
            simp only [hft, List.length_nil, Nat.zero_add, gt_iff_lt, Nat.lt_irrefl, ite_false]
            rw [ih (acc ++ [n0])]
            rcases hws : wireSpec env repo rest with e | names
            · simp
            · simp
          | cons q more2 =>
            simp [hft]
      · by_cases hty : is_type_of env f0 req.component_type
        · simp only [post_init_loop, resolveRequirementSpec, hreqn, hfind, hty, not_true,
            ite_false, if_true]
          rw [ih (acc ++ [n])]
          rcases hws : wireSpec env repo rest with e | names
          · simp
          · simp
        · simp only [post_init_loop, resolveRequirementSpec, hreqn, hfind]
          simp [hty]

lemma createComponent_uninit {Ty : Type} (env : PyEnv Ty)
    (g : String → DozeState Ty → (Except DozeErr (Obj Ty)) × DozeState Ty)
    (fac : Factory Ty) (st : DozeState Ty)
    (hinit : fac.initialized = false) (hmem : fac.component_name ∉ st.stack) :
    createComponent env g fac st = (.error .invalidState, st) := by
  unfold createComponent cyclicPush
  rw [if_neg hmem]
  simp only []
  have hbody : createBody env g fac { st with stack := st.stack ++ [fac.component_name] } =
      (.error .invalidState, { st with stack := st.stack ++ [fac.component_name] }) := by
    unfold createBody
    rw [hinit]
    simp
  rw [hbody]
  unfold cyclicPop
  simp only [List.getLast?_concat, List.dropLast_concat, if_pos]

lemma getObject_uninit {Ty : Type} (env : PyEnv Ty) (fuel : Nat) (n : String)
    (st : DozeState Ty) (fac : Factory Ty)
    (hf : find_by_name st.repo n = some fac)
    (hkind : fac.kind = .singleton ∨ fac.kind = .prototype)
    (hinit : fac.initialized = false) (hcd : fac.cached = none)
    (hmem : fac.component_name ∉ st.stack) :
    getObject env (fuel + 1) n st = (.error .invalidState, st) := by
  rw [getObject_succ]
  rcases hkind with hk | hk
  · simp only [hf, hk, hcd, createComponent_uninit env (getObject env fuel) fac st hinit hmem]
  · simp only [hf, hk, createComponent_uninit env (getObject env fuel) fac st hinit hmem]

lemma getObject_prototype_fresh {Ty : Type} (env : PyEnv Ty) (fuel : Nat) (n : String)
    (st : DozeState Ty) (fac : Factory Ty) (o : Obj Ty) (st' : DozeState Ty)
    (hf : find_by_name st.repo n = some fac) (hk : fac.kind = .prototype)
    (h : getObject env fuel n st = (.ok o, st')) :
    ∃ args k, o = Obj.made fac.component_type k args ∧
      st.next_id ≤ k ∧ st'.next_id = k + 1 := by
  cases fuel with
  | zero =>
    rw [getObject_zero] at h
    simp [hf, hk] at h
  | succ f =>
    rw [getObject_succ] at h
    simp only [hf, hk] at h
    exact createComponent_ok_shape env (getObject env f) (getObject_runOK env f) fac st o st' h

lemma createBody_ok_args {Ty : Type} (env : PyEnv Ty)
    (g : String → DozeState Ty → (Except DozeErr (Obj Ty)) × DozeState Ty)
    (fac : Factory Ty) (st1 : DozeState Ty) (o : Obj Ty) (stB : DozeState Ty)
    (h : createBody env g fac st1 = (.ok o, stB)) :
    ∃ ns args stA, fac.init_factories = some ns ∧
      collectArgs g ns st1 = (.ok args, stA) ∧
      o = Obj.made fac.component_type stA.next_id args := by
  unfold createBody at h
  by_cases hinit : fac.initialized
  · simp only [hinit, not_true, if_neg, ite_false, Bool.not_true] at h
    rcases hif : fac.init_factories with _ | names
    · simp [hif] at h
    · simp only [hif] at h
      rcases hc : collectArgs g names st1 with ⟨rc, stA⟩
      rw [hc] at h
      cases rc with
      | ok args =>
        have h2 : (if env.ctorRaises fac.component_type args = true
            then ((.error .userError : Except DozeErr (Obj Ty)), stA)
            else (.ok (Obj.made fac.component_type stA.next_id args),
                  { stA with next_id := stA.next_id + 1 })) = (.ok o, stB) := h
        by_cases hcr : env.ctorRaises fac.component_type args
        · simp [hcr] at h2
        · rw [if_neg hcr] at h2
          rw [Prod.mk.injEq] at h2
          obtain ⟨ho, -⟩ := h2
          rw [Except.ok.injEq] at ho
          exact ⟨names, args, stA, rfl, hc, ho.symm⟩
      | error e => simp at h
  · simp [hinit] at h

lemma getObject_creating_ok_args {Ty : Type} (env : PyEnv Ty) (fuel : Nat) (n : String)
    (st : DozeState Ty) (fac : Factory Ty) (o : Obj Ty) (st' : DozeState Ty)
    (hf : find_by_name st.repo n = some fac)
    (hkind : fac.kind = .singleton ∨ fac.kind = .prototype)
    (hcd : fac.cached = none)
    (h : getObject env fuel n st = (.ok o, st')) :
    ∃ f ns args stA, fuel = f + 1 ∧ fac.init_factories = some ns ∧
      collectArgs (getObject env f) ns
          { st with stack := st.stack ++ [fac.component_name] } = (.ok args, stA) ∧
      o = Obj.made fac.component_type stA.next_id args := by
  have hmain : ∃ f, fuel = f + 1 ∧
      ∃ st2, createComponent env (getObject env f) fac st = (.ok o, st2) := by
    cases fuel with
    | zero =>
      rcases hkind with hk | hk
      · rw [getObject_zero] at h
        simp [hf, hk, hcd] at h
      · rw [getObject_zero] at h
        simp [hf, hk] at h
    | succ f =>
      rcases hkind with hk | hk
      · rw [getObject_succ] at h
        simp only [hf, hk, hcd] at h
        rcases hc : createComponent env (getObject env f) fac st with ⟨rc, st2⟩
        rw [hc] at h
        cases rc with
        | ok o2 =>
          rw [Prod.mk.injEq] at h
          obtain ⟨ho, -⟩ := h
          rw [Except.ok.injEq] at ho
          exact ⟨f, rfl, st2, by rw [hc, ho]⟩
        | error e => cases h
      · rw [getObject_succ] at h
        simp only [hf, hk] at h
        exact ⟨f, rfl, st', h⟩
  obtain ⟨f, hfuel, st2, hcc⟩ := hmain
  obtain ⟨stB, hB, -⟩ :=
    createComponent_ok_parts env (getObject env f) (getObject_runOK env f) fac st o st2 hcc
  obtain ⟨ns, args, stA, hif, hcoll, ho⟩ := createBody_ok_args env (getObject env f) fac _ o stB hB
  exact ⟨f, ns, args, stA, hfuel, hif, hcoll, ho⟩

lemma get_component_byName {Ty : Type} [DecidableEq Ty] (env : PyEnv Ty) (fuel : Nat)
    (st : DozeState Ty) (n : String) :
    get_component env fuel st (.byName n) =
      match find_by_name st.repo n with
      | none => (.error .unknownComponent, st)
      | some _ => getObject env fuel n st := rfl

lemma get_component_byType {Ty : Type} [DecidableEq Ty] (env : PyEnv Ty) (fuel : Nat)
    (st : DozeState Ty) (t : Ty) :
    get_component env fuel st (.byType t) =
      if ¬ st.repo.exist (.byType t) then (.error .unknownComponent, st)
      else if (find_by_type env st.repo t).length > 1 then (.error .tooManyDefinitions, st)
      else
        match find_by_type env st.repo t with
        | [] => (.error .indexError, st)
        | (m, _) :: _ => getObject env fuel m st := rfl

/-- C10: the dependency-kind enumeration aliases LIST to SIMPLE (both declared
with value 1), so the two members are one and the same value, every function
maps them identically, and no code path can distinguish a LIST requirement
from a scalar SIMPLE requirement. -/
theorem c10_list_alias :
    DependencyType.LIST = DependencyType.SIMPLE ∧
    DependencyType.LIST.value = 1 ∧ DependencyType.SIMPLE.value = 1 ∧
    ∀ (α : Type) (f : DependencyType → α), f DependencyType.LIST = f DependencyType.SIMPLE :=
  ⟨rfl, rfl, rfl, fun _ _ => rfl⟩

/-- C1 counterexample: in the container holding the requirement cycle
a → b → c → a, requesting `b` first raises CyclicDependency whose reported
cycle is ["b", "c", "a", "b"], not [a, b, c, a] as the claim states for every
entry point. -/
theorem c1_counterexample :
    (get_component cEnv 10 c1State (.byName "b")).1 =
      .error (.cyclicDependency ["b", "c", "a", "b"]) ∧
    ["b", "c", "a", "b"] ≠ ["a", "b", "c", "a"] :=
  ⟨rfl, by decide⟩

/-- C1 (amended): for the registered requirement cycle a → b → c → a, get_component
on any component of the cycle (by name or by type) fails with CyclicDependency,
and the reported cycle path is the rotation of the cycle that starts and ends
at the first-requested component: [a,b,c,a] when a is requested first,
[b,c,a,b] for b, and [c,a,b,c] for c. -/
theorem c1_cycle_rotation :
    (get_component cEnv 10 c1State (.byName "a")).1 =
      .error (.cyclicDependency ["a", "b", "c", "a"]) ∧
    (get_component cEnv 10 c1State (.byName "b")).1 =
      .error (.cyclicDependency ["b", "c", "a", "b"]) ∧
    (get_component cEnv 10 c1State (.byName "c")).1 =
      .error (.cyclicDependency ["c", "a", "b", "c"]) ∧
    (get_component cEnv 10 c1State (.byType .A)).1 =
      .error (.cyclicDependency ["a", "b", "c", "a"]) ∧
    (get_component cEnv 10 c1State (.byType .B)).1 =
      .error (.cyclicDependency ["b", "c", "a", "b"]) ∧
    (get_component cEnv 10 c1State (.byType .C)).1 =
      .error (.cyclicDependency ["c", "a", "b", "c"]) :=
  ⟨rfl, rfl, rfl, rfl, rfl, rfl⟩

/-- C5 counterexample: an ordinary positional parameter that is merely named
`args` (not a variadic catch-all) is skipped by the extractor, while the
claim's skipping rule (self plus variadic kinds only) would keep it as a
requirement. -/
theorem c5_counterexample :
    generate_dependency_list CTy.object (.function [argsParam]) = .ok [] ∧
    extractSpec CTy.object [argsParam] =
      [{ component_name := some "args", component_type := .base,
         dependency_type := .SIMPLE }] ∧
    extractSpec CTy.object [argsParam] ≠ [] :=
  ⟨rfl, rfl, by decide⟩

/-- C5 (amended): requirement extraction walks the signature in order and
skips exactly the parameters whose names are "self", "args" or "kwargs"
(regardless of parameter kind); each remaining parameter yields one
requirement carrying the parameter name and its declared annotation, or the
unconstrained object type when no annotation is given; extraction fails with
InvalidArgument on a non-callable value or on a class; a zero-argument
signature yields the empty requirement list. -/
theorem c5_requirement_extraction :
    ∀ {Ty : Type} (objectTy : Ty) (params : List (Param Ty)) (t : Ty),
      generate_dependency_list objectTy (.function params) =
        .ok ((params.filter (fun p => decide (p.name ∉ IGNORED_PARAMETERS_NAMES))).map
          (fun p => { component_name := some p.name, component_type := p.ann.getD objectTy,
                      dependency_type := .SIMPLE })) ∧
      generate_dependency_list objectTy (.function []) = .ok [] ∧
      generate_dependency_list objectTy .plainValue = .error .invalidArgument ∧
      generate_dependency_list objectTy (.classObj t) = .error .invalidArgument := by
  intro Ty objectTy params t
  exact ⟨congrArg Except.ok (gen_deps_filter_map objectTy params), rfl, rfl, rfl⟩

/-- C3 counterexample: with only a Sub instance registered (under `s`) and no
factory producing exactly Base, exactly one registered factory's produced type
is a subtype of Base and it produces successfully, yet get_component by the
type Base fails with UnknownComponent instead of returning that component. -/
theorem c3_counterexample :
    (find_by_type cEnv c3State.repo .base).map Prod.fst = ["s"] ∧
    (getObject cEnv 5 "s" c3State).1 = .ok (.ext .sub 7) ∧
    (get_component cEnv 5 c3State (.byType .base)).1 = .error .unknownComponent :=
  ⟨rfl, rfl, rfl⟩

/-- C4: every top-level get_component call leaves the calling thread's
cyclic-detection stack exactly as it found it, whether the call returns a
component or raises (CyclicDependency, NotInitialized, a constructor failure,
or any other error); in particular a call entered with an empty stack exits
with an empty stack, so subsequent unrelated calls start clean. -/
theorem c4_stack_restored :
    ∀ {Ty : Type} [DecidableEq Ty] (env : PyEnv Ty) (fuel : Nat)
      (st : DozeState Ty) (key : Key Ty),
      ((get_component env fuel st key).2).stack = st.stack := by
  intro Ty _ env fuel st key
  cases key with
  | byName n =>
    rw [get_component_byName]
    rcases hf : find_by_name st.repo n with _ | fac
    · rfl
    · exact (getObject_runOK env fuel n st).1
  | byType t =>
    rw [get_component_byType]
    split
    · rfl
    · split
      · rfl
      · split
        · rfl
        · exact (getObject_runOK env fuel _ st).1

/-- C7: a component registered via register_type (a creating factory that is
not yet initialized and has nothing cached) fails with the NotInitialized
invalid-state error when requested before setup, and the state — including
the factory's cache — is left exactly as it was, so the same lookup succeeds
after setup exactly as if the early call had never happened. -/
theorem c7_not_initialized :
    ∀ {Ty : Type} [DecidableEq Ty] (env : PyEnv Ty) (fuel : Nat) (st : DozeState Ty)
      (n : String) (fac : Factory Ty),
      find_by_name st.repo n = some fac →
      (fac.kind = .singleton ∨ fac.kind = .prototype) →
      fac.initialized = false → fac.cached = none →
      fac.component_name ∉ st.stack →
      get_component env (fuel + 1) st (.byName n) = (.error .invalidState, st) := by
  intro Ty _ env fuel st n fac hf hkind hinit hcd hmem
  rw [get_component_byName]
  simp only [hf]
  exact getObject_uninit env fuel n st fac hf hkind hinit hcd hmem

/-- C7 witness: the concrete pre-setup container fails with the invalid-state
error and is left unchanged, and the very same lookup succeeds after setup. -/
theorem c7_witness :
    get_component cEnv 10 c7State (.byName "s1") = (.error .invalidState, c7State) ∧
    (get_component cEnv 10 c7StateAfter (.byName "s1")).1 = .ok (.made .simpleT 1 []) := by
  constructor
  · exact c7_not_initialized cEnv 9 c7State "s1"
      { component_name := "s1", component_type := .simpleT, kind := .singleton,
        requirements := [], initialized := false, init_factories := none, cached := none }
      rfl (Or.inl rfl) rfl rfl (by decide)
  · rfl

/-- C9: registering under a name that is already bound always fails with
NameConflict and leaves the repository untouched (the first factory stays
bound), for the raw repository operation as well as for instance and type
registration through the container, in particular independent of what kind of
factory occupied the name first or is being registered second. -/
theorem c9_name_conflict :
    ∀ {Ty : Type} [DecidableEq Ty] (env : PyEnv Ty) (repo : Repository Ty) (n : String)
      (fac : Factory Ty) (instObj : Obj Ty) (t : Ty) (nopt : Option String),
      repo.exist (.byName n) = true →
      register_factory repo n fac = (.error .nameAlreadyDefined, repo) ∧
      register_instance repo instObj n = (.error .nameAlreadyDefined, repo) ∧
      (effective_name env t nopt = n →
        register_type env repo t nopt = (.error .nameAlreadyDefined, repo)) := by
  intro Ty _ env repo n fac instObj t nopt hex
  have hany : (repo.factory_by_name.any fun p => decide (p.1 = n)) = true := hex
  refine ⟨?_, ?_, ?_⟩
  · unfold register_factory
    rw [if_pos hany]
  · unfold register_instance register_factory
    rw [if_pos hany]
  · intro hn
    unfold register_type
    simp only [generate_dependency_list]
    rw [hn]
    unfold register_factory
    rw [if_pos hany]

/-- C9 witness: re-registering the bound name `s1` fails with NameConflict
for a raw factory, for an instance and for a type registration, leaving the
repository unchanged each time. -/
theorem c9_witness :
    register_factory c7Repo "s1" protoFac = (.error .nameAlreadyDefined, c7Repo) ∧
    register_instance c7Repo (Obj.ext CTy.base 3) "s1" = (.error .nameAlreadyDefined, c7Repo) ∧
    register_type cEnv c7Repo .base (some "s1") = (.error .nameAlreadyDefined, c7Repo) := by
  have h := c9_name_conflict cEnv c7Repo "s1" protoFac (Obj.ext CTy.base 3) CTy.base
    (some "s1") (by rfl)
  exact ⟨h.1, h.2.1, h.2.2 rfl⟩

/-- C2: for every creating factory, post_init resolves each declared
requirement exactly as the claim describes — a named requirement found under
its name must have a produced type equal to or a subtype of the declared type
(TypeMismatch otherwise); with no name, or on a name miss, the by-type lookup
must match exactly one factory (UnknownComponent on zero, AmbiguousComponent
on more than one) — and when every requirement resolves, the factory stores
the resolved list and transitions to ready. -/
theorem c2_wiring_resolution :
    ∀ {Ty : Type} (env : PyEnv Ty) (repo : Repository Ty) (fac : Factory Ty),
      (fac.kind = .singleton ∨ fac.kind = .prototype) →
      (post_init env repo fac =
        match wireSpec env repo fac.requirements with
        | .error e => .error e
        | .ok names => .ok { fac with init_factories := some names, initialized := true }) ∧
      (∀ fac', post_init env repo fac = .ok fac' → fac'.initialized = true) := by
  intro Ty env repo fac hkind
  have hmain : post_init env repo fac =
      match wireSpec env repo fac.requirements with
      | .error e => .error e
      | .ok names => .ok { fac with init_factories := some names, initialized := true } := by
    unfold post_init
    rcases hkind with hk | hk <;>
    · simp only [hk]
      rw [post_init_loop_spec env repo fac.requirements []]
      rcases hws : wireSpec env repo fac.requirements with e | names <;> simp [hws]
  refine ⟨hmain, ?_⟩
  intro fac' hok
  rw [hmain] at hok
  rcases hws : wireSpec env repo fac.requirements with e | names <;> rw [hws] at hok
  · cases hok
  · cases hok
    rfl

/-- C2 witness: wiring the container-requiring factory against a repository
holding only the container resolves its single named requirement to the
container factory and marks the factory ready. -/
theorem c2_witness :
    (post_init cEnv (container_init contObj).2 c2Fac =
      match wireSpec cEnv (container_init contObj).2 c2Fac.requirements with
      | .error e => .error e
      | .ok names => .ok { c2Fac with init_factories := some names, initialized := true }) ∧
    post_init cEnv (container_init contObj).2 c2Fac =
      .ok { c2Fac with init_factories := some ["container"], initialized := true } :=
  ⟨(c2_wiring_resolution cEnv (container_init contObj).2 c2Fac (Or.inl rfl)).1, rfl⟩

/-- C3 (amended): get_component by type first requires some registered factory
to produce exactly the requested type — otherwise it fails with
UnknownComponent even when factories producing proper subtypes exist; when an
exact-type factory is registered, the call fails with AmbiguousComponent when
the equals-or-subtype matches number more than one, and with exactly one match
it produces through that matching factory. -/
theorem c3_by_type_lookup :
    ∀ {Ty : Type} [DecidableEq Ty] (env : PyEnv Ty) (fuel : Nat) (st : DozeState Ty)
      (t : Ty), typesIndexOK st.repo →
      ((¬ ∃ p ∈ st.repo.factory_by_name, p.2.component_type = t) →
        get_component env fuel st (.byType t) = (.error .unknownComponent, st)) ∧
      ((∃ p ∈ st.repo.factory_by_name, p.2.component_type = t) →
        ((find_by_type env st.repo t).length > 1 →
          get_component env fuel st (.byType t) = (.error .tooManyDefinitions, st)) ∧
        (∀ m g, find_by_type env st.repo t = [(m, g)] →
          get_component env fuel st (.byType t) = getObject env fuel m st)) := by
  intro Ty _ env fuel st t hidx
  constructor
  · intro hno
    have hmem : t ∉ st.repo.available_component_types := fun hmem => hno ((hidx t).mp hmem)
    have hex : st.repo.exist (.byType t) = false := by
      unfold Repository.exist
      exact decide_eq_false hmem
    rw [get_component_byType, if_pos (by rw [hex]; simp)]
  · intro hyes
    have hmem : t ∈ st.repo.available_component_types := (hidx t).mpr hyes
    have hex : st.repo.exist (.byType t) = true := by
      unfold Repository.exist
      exact decide_eq_true hmem
    constructor
    · intro hlen
      rw [get_component_byType, if_neg (by rw [hex]; simp), if_pos hlen]
    · intro m g hft
      have hlen : ¬ (find_by_type env st.repo t).length > 1 := by
        rw [hft]
        simp
      rw [get_component_byType, if_neg (by rw [hex]; simp), if_neg hlen, hft]

/-- C3 witness: on the Sub-only repository, a by-type request for Base (no
exact match) fails with UnknownComponent, and a by-type request for Sub —
whose single equals-or-subtype match is its own exact factory — produces
through that factory. -/
theorem c3_witness :
    get_component cEnv 5 c3State (.byType .base) = (.error .unknownComponent, c3State) ∧
    get_component cEnv 5 c3State (.byType .sub) = getObject cEnv 5 "s" c3State := by
  have hidx : typesIndexOK c3State.repo := by
    unfold typesIndexOK
    decide
  constructor
  · exact (c3_by_type_lookup cEnv 5 c3State .base hidx).1 (by decide)
  · exact ((c3_by_type_lookup cEnv 5 c3State .sub hidx).2 (by decide)).2 "s"
      { component_name := "s", component_type := .sub, kind := .static (Obj.ext .sub 7),
        requirements := [], initialized := true, init_factories := none, cached := none }
      rfl

/-- C6: a wired singleton factory returns the identical instance on repeated
get_component calls with the state unchanged after the first success (the
component is constructed at most once); a wired prototype factory returns a
distinct, freshly constructed instance on every successful call. -/
theorem c6_singleton_prototype :
    (∀ {Ty : Type} [DecidableEq Ty] (env : PyEnv Ty) (fuel fuel2 : Nat)
        (st : DozeState Ty) (n : String) (fac : Factory Ty) (o : Obj Ty) (st' : DozeState Ty),
        WFNames st.repo → find_by_name st.repo n = some fac → fac.kind = .singleton →
        get_component env fuel st (.byName n) = (.ok o, st') →
        get_component env fuel2 st' (.byName n) = (.ok o, st')) ∧
    (∀ {Ty : Type} [DecidableEq Ty] (env : PyEnv Ty) (f1 f2 : Nat)
        (st : DozeState Ty) (n : String) (fac : Factory Ty) (o1 o2 : Obj Ty)
        (st1 st2 : DozeState Ty),
        find_by_name st.repo n = some fac → fac.kind = .prototype →
        get_component env f1 st (.byName n) = (.ok o1, st1) →
        get_component env f2 st1 (.byName n) = (.ok o2, st2) →
        o1 ≠ o2 ∧ ∃ k args, o1 = Obj.made fac.component_type k args ∧ st.next_id ≤ k) := by
  constructor
  · intro Ty _ env fuel fuel2 st n fac o st' hwf hf hk h
    rw [get_component_byName] at h
    simp only [hf] at h
    obtain ⟨fac', hf', hk', hcd'⟩ :=
      getObject_singleton_cache env fuel n st fac o st' hwf hf hk h
    rw [get_component_byName]
    simp only [hf']
    exact getObject_cached_hit env fuel2 n st' fac' o hf' hk' hcd'
  · intro Ty _ env f1 f2 st n fac o1 o2 st1 st2 hf hk h1 h2
    rw [get_component_byName] at h1 h2
    simp only [hf] at h1
    obtain ⟨args1, k1, ho1, hle1, hid1⟩ :=
      getObject_prototype_fresh env f1 n st fac o1 st1 hf hk h1
    have hR : RunOK st st1 := by
      have := getObject_runOK env f1 n st
      rw [h1] at this
      exact this
    obtain ⟨fac2, hf2, hk2, hty2, -, -, -⟩ := entriesEvolve_keeps hR.2.2 hf
    simp only [hf2] at h2
    obtain ⟨args2, k2, ho2, hle2, hid2⟩ :=
      getObject_prototype_fresh env f2 n st1 fac2 o2 st2 hf2 (hk2.trans hk) h2
    refine ⟨?_, k1, args1, ho1, hle1⟩
    intro heq
    rw [ho1, ho2] at heq
    injection heq with hty hkk hargs
    omega

/-- C6 witness: the wired singleton returns the same constructed object again
with the state unchanged, and the prototype factory returns objects with two
different allocation identities on consecutive calls. -/
theorem c6_witness :
    get_component cEnv 3 ((get_component cEnv 10 c7StateAfter (.byName "s1")).2)
        (.byName "s1") =
      (.ok (.made .simpleT 1 []), (get_component cEnv 10 c7StateAfter (.byName "s1")).2) ∧
    (get_component cEnv 10 c6State (.byName "p")).1 = .ok (.made .simpleT 0 []) ∧
    (get_component cEnv 10 ((get_component cEnv 10 c6State (.byName "p")).2)
        (.byName "p")).1 = .ok (.made .simpleT 1 []) ∧
    (Obj.made CTy.simpleT 0 [] : Obj CTy) ≠ Obj.made CTy.simpleT 1 [] := by
  refine ⟨?_, rfl, rfl, ?_⟩
  · exact c6_singleton_prototype.1 cEnv 10 3 c7StateAfter "s1"
      { component_name := "s1", component_type := .simpleT, kind := .singleton,
        requirements := [], initialized := true, init_factories := some [], cached := none }
      (.made .simpleT 1 []) _
      (wfNames_of_entries _ (by decide)) rfl rfl rfl
  · exact (c6_singleton_prototype.2 cEnv 10 10 c6State "p" protoFac
      (.made .simpleT 0 []) (.made .simpleT 1 []) _ _ rfl rfl rfl rfl).1

/-- C8: every container registers itself under the fixed name "container" at
construction time (a static factory wrapping the container instance itself),
and any component whose wired requirements reference "container" that is
produced successfully receives among its constructor arguments a reference
identical to the very instance that static factory wraps. -/
theorem c8_container_self_injection :
    (∀ {Ty : Type} [DecidableEq Ty] (selfObj : Obj Ty),
      find_by_name (container_init selfObj).2 CONTAINER_COMPONENT_NAME =
        some { component_name := CONTAINER_COMPONENT_NAME, component_type := selfObj.ty,
               kind := .static selfObj, requirements := [], initialized := true,
               init_factories := none, cached := none }) ∧
    (∀ {Ty : Type} [DecidableEq Ty] (env : PyEnv Ty) (fuel : Nat) (st : DozeState Ty)
        (c : Obj Ty) (cf : Factory Ty) (n : String) (fac : Factory Ty) (ns : List String)
        (o : Obj Ty) (st' : DozeState Ty),
        WFNames st.repo →
        find_by_name st.repo CONTAINER_COMPONENT_NAME = some cf → cf.kind = .static c →
        find_by_name st.repo n = some fac →
        (fac.kind = .singleton ∨ fac.kind = .prototype) → fac.cached = none →
        fac.init_factories = some ns → CONTAINER_COMPONENT_NAME ∈ ns →
        get_component env fuel st (.byName n) = (.ok o, st') →
        ∃ k args, o = Obj.made fac.component_type k args ∧ c ∈ args) := by
  constructor
  · intro Ty _ selfObj
    rfl
  · intro Ty _ env fuel st c cf n fac ns o st' hwf hcf hcfk hfn hkind hcd hif hns hrun
    rw [get_component_byName] at hrun
    simp only [hfn] at hrun
    obtain ⟨f, ns', args, stA, hfuel, hif', hcoll, ho⟩ :=
      getObject_creating_ok_args env fuel n st fac o st' hfn hkind hcd hrun
    rw [hif] at hif'
    injection hif' with hns'
    subst hns'
    have hstat : StaticAt { st with stack := st.stack ++ [fac.component_name] }
        CONTAINER_COMPONENT_NAME c := ⟨cf, hcf, hcfk⟩
    have hc : c ∈ args :=
      collectArgs_contains_static (getObject env f) (getObject_runOK env f)
        CONTAINER_COMPONENT_NAME c
        (fun s hs => getObject_static_eval env f CONTAINER_COMPONENT_NAME s c hs)
        ns _ args stA hstat hns hcoll
    exact ⟨stA.next_id, args, ho, hc⟩

/-- C8 witness: in the concrete container, both the component that names its
parameter "container" and the component that asks for the container type are
produced successfully and receive exactly the container object registered at
construction. -/
theorem c8_witness :
    (get_component cEnv 9 c8State (.byName "nc")).1 = .ok (.made .needsC 1 [contObj]) ∧
    (get_component cEnv 9 c8State (.byName "nc2")).1 = .ok (.made .needsC2 1 [contObj]) ∧
    (∃ k args, (Obj.made CTy.needsC 1 [contObj] : Obj CTy) = .made .needsC k args ∧
      contObj ∈ args) := by
  refine ⟨rfl, rfl, ?_⟩
  exact c8_container_self_injection.2 cEnv 9 c8State contObj
    { component_name := "container", component_type := .containerT, kind := .static contObj,
      requirements := [], initialized := true, init_factories := none, cached := none }
    "nc"
    { component_name := "nc", component_type := .needsC, kind := .singleton,
      requirements := [{ component_name := some "container", component_type := .containerT,
                         dependency_type := .SIMPLE }],
      initialized := true, init_factories := some ["container"], cached := none }
    ["container"] (.made .needsC 1 [contObj]) _
    (wfNames_of_entries _ (by decide)) rfl rfl rfl (Or.inl rfl) rfl rfl (by decide) rfl
